import Mathlib

/-!
Verification development for the CloudLaunch asynchronous job execution and
live-log-streaming subsystem (src/api/middleware.py, src/api/jobs.py,
src/api/app.py).

Shallow embedding conventions:
  - Python `int` counters are modelled as `Nat` (they start at 0, are only
    incremented, or decremented clamped at zero via `max(0, x-1)`, which is
    exactly `Nat` subtraction).
  - Python `float` token-bucket arithmetic is modelled over `ℚ`
    (exact arithmetic standing for the IEEE computation).
  - `defaultdict(int)` is modelled as a total function `String → Nat`
    defaulting to 0.
  - Fallible guards that `raise HTTPException` without mutating state are
    modelled as functions returning `Bool × State`: `false` means the
    exception was raised, and the returned state is the (unchanged) state.
-/

namespace CloudLaunch

/-! ## Token-bucket rate limiter — src/api/middleware.py, class `_Bucket` -/

/-- One token bucket (middleware.py lines 110-128).  `tokens` and the clock
are rationals standing for the Python floats; `last_refill` stores the
monotonic-clock reading of the previous `consume` call. -/
structure Bucket where
  tokens : ℚ
  last_refill : ℚ
  capacity : ℚ
  refill_rate : ℚ
  deriving Repr, DecidableEq

/-- `_Bucket.__init__`: starts full, clock at `now`. -/
def Bucket.mk_full (capacity refill_rate now : ℚ) : Bucket :=
  { tokens := capacity, last_refill := now, capacity := capacity,
    refill_rate := refill_rate }

/-- `_Bucket.consume` (middleware.py lines 120-128): refill proportionally to
elapsed time, capped at capacity; admit iff the refilled level covers `cost`,
deducting `cost` on admission.  Returns (admitted, updated bucket). -/
def Bucket.consume (b : Bucket) (now : ℚ) (cost : ℚ) : Bool × Bucket :=
  let elapsed := now - b.last_refill
  let refilled := min b.capacity (b.tokens + elapsed * b.refill_rate)
  if refilled ≥ cost then
    (true, { b with tokens := refilled - cost, last_refill := now })
  else
    (false, { b with tokens := refilled, last_refill := now })

/-! ## Concurrency admission controller — src/api/middleware.py §3a -/

/-- The two configured maxima `MAX_CONCURRENT_JOBS` and `MAX_JOBS_PER_IP`. -/
structure ConcConfig where
  max_concurrent : Nat
  max_per_ip : Nat

/-- The module-level counters `_global_running` and `_running_jobs`
(a `defaultdict(int)` keyed by caller IP). -/
structure ConcState where
  global_running : Nat
  running_jobs : String → Nat

/-- Process start: both counters zero. -/
def ConcState.init : ConcState :=
  { global_running := 0, running_jobs := fun _ => 0 }

/-- `check_concurrency` (middleware.py lines 251-276): reject (HTTP 429)
if the global bound or the caller's per-IP bound is already met, mutating
nothing; otherwise increment both counters. -/
def check_concurrency (cfg : ConcConfig) (ip : String) (s : ConcState) :
    Bool × ConcState :=
  if s.global_running ≥ cfg.max_concurrent then
    (false, s)
  else if s.running_jobs ip ≥ cfg.max_per_ip then
    (false, s)
  else
    (true,
      { global_running := s.global_running + 1,
        running_jobs := fun j =>
          if j = ip then s.running_jobs ip + 1 else s.running_jobs j })

/-- `release_concurrency_slot` (middleware.py lines 279-285):
`_global_running = max(0, _global_running - 1)` and the per-IP counter is
decremented only when positive — both exactly `Nat` subtraction. -/
def release_concurrency_slot (ip : String) (s : ConcState) : ConcState :=
  { global_running := s.global_running - 1,
    running_jobs := fun j =>
      if j = ip then s.running_jobs ip - 1 else s.running_jobs j }

/-- One call against the concurrency controller: a reserve attempt
(`check_concurrency`) or a release, each carrying the caller's IP. -/
inductive ConcEvent where
  | reserve (ip : String)
  | release (ip : String)

/-- Apply one event; a rejected reserve leaves the state as returned by
`check_concurrency` (i.e. unchanged). -/
def ConcEvent.apply (cfg : ConcConfig) (s : ConcState) : ConcEvent → ConcState
  | .reserve ip => (check_concurrency cfg ip s).2
  | .release ip => release_concurrency_slot ip s

/-- Run a whole call sequence from a starting state. -/
def runConcEvents (cfg : ConcConfig) (evs : List ConcEvent) (s : ConcState) :
    ConcState :=
  evs.foldl (fun st e => e.apply cfg st) s

/-- The bounds the spec asserts: global count within its maximum and every
per-caller count within its maximum (non-negativity is inherent to `Nat`). -/
def ConcInv (cfg : ConcConfig) (s : ConcState) : Prop :=
  s.global_running ≤ cfg.max_concurrent ∧
  ∀ ip, s.running_jobs ip ≤ cfg.max_per_ip

/-! ## Provision budget controller — src/api/middleware.py §3b -/

/-- The module-level counters `_provision_count` (active VMs) and
`_provision_total` (lifetime total, never decremented). -/
structure BudgetState where
  provision_count : Nat
  provision_total : Nat
  deriving Repr, DecidableEq

/-- Process start: both counters zero. -/
def BudgetState.init : BudgetState :=
  { provision_count := 0, provision_total := 0 }

/-- `check_provision_budget` (middleware.py lines 298-327), parameterised by
the configured cap `MAX_TOTAL_PROVISIONS`: cap 0 disables the guard entirely
(early return, nothing mutated); otherwise reject (HTTP 403) when the active
count has reached the cap, else increment both the active count and the
lifetime total. -/
def check_provision_budget (max_provisions : Nat) (s : BudgetState) :
    Bool × BudgetState :=
  if max_provisions = 0 then
    (true, s)
  else if s.provision_count ≥ max_provisions then
    (false, s)
  else
    (true,
      { provision_count := s.provision_count + 1,
        provision_total := s.provision_total + 1 })

/-- `release_provision_slot` (middleware.py lines 330-338):
`_provision_count = max(0, _provision_count - 1)`. -/
def release_provision_slot (s : BudgetState) : BudgetState :=
  { s with provision_count := s.provision_count - 1 }

/-- The dictionary returned by `get_provision_quota`
(middleware.py lines 355-365), limits reported as `none` when disabled. -/
structure QuotaInfo where
  provisions_active : Nat
  provisions_limit : Option Nat
  provisions_total : Nat
  deriving Repr, DecidableEq

/-- `get_provision_quota` (middleware.py lines 355-365). -/
def get_provision_quota (max_provisions : Nat) (s : BudgetState) : QuotaInfo :=
  { provisions_active := s.provision_count,
    provisions_limit := if max_provisions > 0 then some max_provisions else none,
    provisions_total := s.provision_total }

/-- State after `n` consecutive `check_provision_budget` attempts starting
from process start, with no intervening release. -/
def budgetAfter (max_provisions : Nat) : Nat → BudgetState
  | 0 => BudgetState.init
  | n + 1 => (check_provision_budget max_provisions (budgetAfter max_provisions n)).2

/-! ## Teardown paths and their effect on the budget counters

`_destroy_and_cleanup` (app.py lines 347-353) is the body of a manual
`POST /destroy` job; `_do_destroy` (middleware.py lines 391-405) is the body
of the auto-destroy timer.  Each is embedded as the list of side-effecting
steps it performs, so that the presence or absence of a budget release is a
property of the step list taken from the source. -/

/-- One side-effecting step of a teardown body. -/
inductive TeardownStep where
  | cancelTimer       -- `cancel_auto_destroy()`        (app.py line 349)
  | providerDestroy   -- `p.destroy(state, log=log)`
  | removeStateFile   -- `os.remove(state_file)`
  | releaseBudget     -- `release_provision_slot()`     (middleware.py line 402)
  deriving Repr, DecidableEq

/-- `_destroy_and_cleanup` (app.py lines 347-353): cancel any pending
auto-destroy timer, call the provider teardown, remove state.json.  The
function body contains no call to `release_provision_slot`. -/
def destroy_and_cleanup_steps : List TeardownStep :=
  [.cancelTimer, .providerDestroy, .removeStateFile]

/-- `_do_destroy` (middleware.py lines 391-405): provider teardown, state-file
removal and `release_provision_slot()` inside the `try`; when the provider
teardown raises, the remaining steps are skipped (`except` only logs). -/
def do_destroy_steps (destroyOk : Bool) : List TeardownStep :=
  if destroyOk then [.providerDestroy, .removeStateFile, .releaseBudget]
  else [.providerDestroy]

/-- Effect of one teardown step on the budget counters: only
`release_provision_slot` touches them. -/
def TeardownStep.applyBudget (s : BudgetState) : TeardownStep → BudgetState
  | .releaseBudget => release_provision_slot s
  | _ => s

/-- Run a teardown body over the budget counters. -/
def runTeardown (steps : List TeardownStep) (s : BudgetState) : BudgetState :=
  steps.foldl (fun st e => e.applyBudget st) s

/-! ## Job records and the background runner — src/api/jobs.py -/

/-- `JobStatus` (src/api/schemas.py lines 24-40). -/
inductive JStatus where
  | pending
  | running
  | succeeded
  | failed
  deriving Repr, DecidableEq

/-- `job.status in (JobStatus.SUCCEEDED, JobStatus.FAILED)`. -/
def JStatus.isTerminal : JStatus → Bool
  | .succeeded | .failed => true
  | _ => false

/-- The provision result dictionary (`state` — public IP etc.), modelled as
an association list; deploy/destroy work returns `None`. -/
abbrev ResVal := List (String × String)

/-- The fields of a `Job` (jobs.py lines 52-61) that the runner mutates.
The accumulated `logs` list and the relay queue contents are tracked
separately as the emitted line sequence (see `Work.lines`). -/
structure JobRec where
  status : JStatus
  result : Option ResVal
  error : Option String
  deriving Repr, DecidableEq

/-- `Job.__init__`: status PENDING, error and result unset. -/
def JobRec.init : JobRec :=
  { status := .pending, result := none, error := none }

/-- Outcome of the submitted work `fn`: it either returns normally —
`None` for deploy/destroy, a state dict for provision (jobs.py line 139
comment) — or raises with message `str(exc)`. -/
inductive Outcome where
  | ok (v : Option ResVal)
  | err (msg : String)
  deriving Repr, DecidableEq

/-- One submitted unit of work as the runner observes it: the log lines it
reports through the injected `log=` hook, in order, and its outcome. -/
structure Work where
  lines : List String
  outcome : Outcome

/-- Observable side effects of `_run_job` beyond the job record: pushes onto
the job's relay queue (each reported line, then the `None` sentinel) and the
concurrency-slot release. -/
inductive Effect where
  | pushLine (s : String)   -- `job.log_queue.put(line)` inside `_log`
  | pushSentinel            -- `job.log_queue.put(None)` in the finally block
  | releaseSlot             -- `release_concurrency_slot(job.caller_ip)`
  deriving Repr, DecidableEq

/-- `_run_job` (jobs.py lines 113-148), embedded as the trace of job-record
states at each assignment together with the ordered effect list:

1. `job.status = RUNNING`;
2. `fn` runs, pushing each reported line onto the relay (and appending it to
   `job.logs` in the same order);
3. on normal return `job.result = result` then `job.status = SUCCEEDED`;
   on exception `job.error = str(exc)` then `job.status = FAILED`;
4. the `finally` block pushes the sentinel and releases the concurrency slot,
   in that order, in both branches. -/
def run_job (w : Work) : List JobRec × List Effect :=
  let r0 := JobRec.init
  let r1 := { r0 with status := .running }
  let lineEffects := w.lines.map Effect.pushLine
  match w.outcome with
  | .ok v =>
    let r2 := { r1 with result := v }
    let r3 := { r2 with status := .succeeded }
    ([r0, r1, r2, r3], lineEffects ++ [.pushSentinel, .releaseSlot])
  | .err m =>
    let r2 := { r1 with error := some m }
    let r3 := { r2 with status := .failed }
    ([r0, r1, r2, r3], lineEffects ++ [.pushSentinel, .releaseSlot])

/-- The job-record states `_run_job` writes, in program order. -/
def runTrace (w : Work) : List JobRec := (run_job w).1

/-- The relay/concurrency effects of `_run_job`, in program order. -/
def runEffects (w : Work) : List Effect := (run_job w).2

/-- The result value the work returned, if it returned. -/
def Outcome.value : Outcome → Option ResVal
  | .ok v => v
  | .err _ => none

/-- The terminal status `_run_job` assigns for an outcome. -/
def Outcome.terminalStatus : Outcome → JStatus
  | .ok _ => .succeeded
  | .err _ => .failed

/-- Collapse consecutive equal statuses, leaving the sequence of distinct
states a job record moves through. -/
def dedupAdjacent : List JStatus → List JStatus
  | [] => []
  | [a] => [a]
  | a :: b :: rest =>
    if a = b then dedupAdjacent (b :: rest) else a :: dedupAdjacent (b :: rest)

/-! ## WebSocket streaming session — src/api/app.py, `websocket_logs` -/

/-- One frame of the streaming protocol (app.py lines 455-476). -/
inductive Frame where
  | log (line : String)
  | statusF (s : JStatus)
  | resultF (v : ResVal)
  | errorF (msg : String)
  | done
  | ping
  deriving Repr, DecidableEq

/-- What one `job.log_queue.get` round in the drain loop yields to a session:
a log line, a 15-second timeout (`queue.Empty`), or the `None` sentinel. -/
inductive QEvent where
  | line (s : String)
  | timeout
  | eos
  deriving Repr, DecidableEq

/-- Python truthiness of `job.result` (`if job.result:`): an absent dict and
an empty dict are both falsy. -/
def resultTruthy : Option ResVal → Bool
  | some v => !v.isEmpty
  | none => false

/-- Python truthiness of `job.error` (`if job.error:`). -/
def errorTruthy : Option String → Bool
  | some m => !(m = "")
  | none => false

/-- The `result` frame emitted by `if job.result: send result`. -/
def resultFrames (r : Option ResVal) : List Frame :=
  match r with
  | some v => if v.isEmpty then [] else [.resultF v]
  | none => []

/-- The `error` frame emitted by `if job.error: send error`. -/
def errorFrames (e : Option String) : List Frame :=
  match e with
  | some m => if m = "" then [] else [.errorF m]
  | none => []

/-- The drain loop of `websocket_logs` (app.py lines 553-584): each queue
round yields a heartbeat `ping` on timeout, stops at the `None` sentinel, and
otherwise skips the first `history_count` lines (already replayed) before
forwarding lines as `log` frames. -/
def drainFrames (skipBudget : Nat) : List QEvent → List Frame
  | [] => []
  | .timeout :: rest => .ping :: drainFrames skipBudget rest
  | .eos :: _ => []
  | .line s :: rest =>
    if skipBudget > 0 then drainFrames (skipBudget - 1) rest
    else .log s :: drainFrames skipBudget rest

/-- `websocket_logs` on a job identity the store does not know
(app.py lines 493-499): one `error` frame, then close with code 4004.
Returns (frames sent, close code). -/
def ws_unknown_job (job_id : String) : List Frame × Nat :=
  ([.errorF ("Job " ++ job_id ++ " not found.")], 4004)

/-- `websocket_logs` on a known job (app.py lines 501-601), embedded over the
values the handler reads from the shared record and queue:

  - `hist` — the snapshot `list(job.logs)` taken at attach;
  - `stAtt`, `resAtt`, `errAtt` — the record fields read right after replay;
  - `events` — what the drain loop's successive `queue.get` rounds yield
    (only reached when `stAtt` is not terminal);
  - `stEnd`, `resEnd`, `errEnd` — the record fields read after the loop.

Frames in order: replayed `log` frames, a `status` frame, then either
(terminal at attach) optional `result`/`error` frames and `done`, or the
live drain followed by a second `status` frame, optional `result`/`error`
frames and `done`.  The normal close after `done` uses the default close
code 1000. -/
def ws_known_job (hist : List String) (stAtt : JStatus)
    (resAtt : Option ResVal) (errAtt : Option String)
    (events : List QEvent) (stEnd : JStatus)
    (resEnd : Option ResVal) (errEnd : Option String) : List Frame × Nat :=
  if stAtt.isTerminal then
    (hist.map Frame.log ++ [.statusF stAtt] ++ resultFrames resAtt
       ++ errorFrames errAtt ++ [.done], 1000)
  else
    (hist.map Frame.log ++ [.statusF stAtt] ++ drainFrames hist.length events
       ++ [.statusF stEnd] ++ resultFrames resEnd ++ errorFrames errEnd
       ++ [.done], 1000)

/-- Project the log lines a session delivered out of its frame sequence. -/
def logLines (fs : List Frame) : List String :=
  fs.filterMap fun f =>
    match f with
    | .log s => some s
    | _ => none

/-- The log lines a drain-loop event sequence carries, up to the first
sentinel — i.e. what the relay delivered to this consumer. -/
def linesBeforeEos : List QEvent → List String
  | [] => []
  | .eos :: _ => []
  | .timeout :: rest => linesBeforeEos rest
  | .line s :: rest => s :: linesBeforeEos rest

/-- Decide whether `l` is an interleaving of `a` and `b` — used to certify
that a split of the relay queue's items between two concurrent consumers is
one the thread-safe queue can actually produce (each `get` removes one item;
each consumer sees its items in queue order). -/
def isInterleave : List QEvent → List QEvent → List QEvent → Bool
  | [], [], [] => true
  | [], [], _ :: _ => false
  | [], b :: bs, c :: cs => b = c && isInterleave [] bs cs
  | a :: as, [], c :: cs => a = c && isInterleave as [] cs
  | a :: as, b :: bs, c :: cs =>
    (a = c && isInterleave as (b :: bs) cs) ||
    (b = c && isInterleave (a :: as) bs cs)
  | _, _, [] => false

/-! ## Theorems -/

/-- C10: with the budget cap configured to zero (the cap disabled),
`check_provision_budget` succeeds via its early return and mutates nothing:
the active count, the lifetime total and the whole quota report are left
unchanged, so the lifetime total only ever counts reservations made while a
positive cap was configured. -/
theorem budget_cap_zero_reserve_noop (s : BudgetState) :
    check_provision_budget 0 s = (true, s) ∧
    get_provision_quota 0 ((check_provision_budget 0 s).2) =
      get_provision_quota 0 s ∧
    ((check_provision_budget 0 s).2).provision_total = s.provision_total := by
  refine ⟨rfl, rfl, rfl⟩

/-- C6: `_Bucket.consume` at the default cost 1.0 admits a request if and
only if the refilled level — the stored tokens plus elapsed time times the
refill rate, capped at capacity — is at least 1; on admission exactly one
token is deducted from the refilled level, on rejection none is, and in both
cases the refill timestamp advances to `now` while capacity and rate are
untouched. -/
theorem bucket_consume_admission (b : Bucket) (now : ℚ) :
    (b.consume now 1).1 =
      decide (min b.capacity (b.tokens + (now - b.last_refill) * b.refill_rate) ≥ 1) ∧
    (b.consume now 1).2.tokens =
      (if min b.capacity (b.tokens + (now - b.last_refill) * b.refill_rate) ≥ 1
       then min b.capacity (b.tokens + (now - b.last_refill) * b.refill_rate) - 1
       else min b.capacity (b.tokens + (now - b.last_refill) * b.refill_rate)) ∧
    (b.consume now 1).2.last_refill = now ∧
    (b.consume now 1).2.capacity = b.capacity ∧
    (b.consume now 1).2.refill_rate = b.refill_rate := by
  by_cases h : min b.capacity (b.tokens + (now - b.last_refill) * b.refill_rate) ≥ 1 <;>
    simp [Bucket.consume, h]

/-- C7: for every submitted work, whatever its outcome, `_run_job` pushes the
end-of-stream sentinel onto the relay exactly once, the concurrency-slot
release happens exactly once, and these are the final two effects in that
order: sentinel first, release second. -/
theorem runner_sentinel_then_release (w : Work) :
    ∃ pre, runEffects w = pre ++ [Effect.pushSentinel, Effect.releaseSlot] ∧
      Effect.pushSentinel ∉ pre ∧ Effect.releaseSlot ∉ pre := by
  refine ⟨w.lines.map Effect.pushLine, ?_, ?_, ?_⟩
  · cases w with
    | mk lines outcome => cases outcome <;> rfl
  · simp [List.mem_map]
  · simp [List.mem_map]

/-- C9: the status sequence `_run_job` writes through any job record is
exactly Pending, then Running, then one terminal status determined by the
outcome (Succeeded on normal return, Failed on an exception) — Running is
never skipped and nothing follows the terminal status. -/
theorem status_lifecycle_exactly_once (w : Work) :
    dedupAdjacent ((runTrace w).map JobRec.status) =
      [JStatus.pending, JStatus.running, w.outcome.terminalStatus] ∧
    (w.outcome.terminalStatus = JStatus.succeeded ∨
      w.outcome.terminalStatus = JStatus.failed) := by
  cases w with
  | mk lines outcome =>
    cases outcome with
    | ok v => exact ⟨rfl, Or.inl rfl⟩
    | err m => exact ⟨rfl, Or.inr rfl⟩

/-- C1: the code contradicts its own documentation.  With cap 1, a
successful provision reservation takes the active count to 1; running the
manual-destroy job body (`_destroy_and_cleanup`, which never calls
`release_provision_slot`) leaves the count at 1, so the next provision is
rejected — whereas the auto-destroy body (`_do_destroy`) does decrement the
count to 0 on success, after which a provision is admitted again. -/
theorem budget_manual_destroy_leaks_slot :
    (check_provision_budget 1 BudgetState.init).1 = true ∧
    ((check_provision_budget 1 BudgetState.init).2).provision_count = 1 ∧
    runTeardown destroy_and_cleanup_steps
      ((check_provision_budget 1 BudgetState.init).2) =
      (check_provision_budget 1 BudgetState.init).2 ∧
    (check_provision_budget 1
      (runTeardown destroy_and_cleanup_steps
        ((check_provision_budget 1 BudgetState.init).2))).1 = false ∧
    (runTeardown (do_destroy_steps true)
      ((check_provision_budget 1 BudgetState.init).2)).provision_count = 0 ∧
    (check_provision_budget 1
      (runTeardown (do_destroy_steps true)
        ((check_provision_budget 1 BudgetState.init).2))).1 = true ∧
    TeardownStep.releaseBudget ∉ destroy_and_cleanup_steps := by
  decide

/-- `check_concurrency` and `release_concurrency_slot` each preserve the
counter bounds. -/
lemma concInv_apply (cfg : ConcConfig) (e : ConcEvent) (s : ConcState)
    (h : ConcInv cfg s) : ConcInv cfg (e.apply cfg s) := by
  obtain ⟨hg, hip⟩ := h
  cases e with
  | reserve ip =>
    show ConcInv cfg (check_concurrency cfg ip s).2
    unfold check_concurrency
    split
    · exact ⟨hg, hip⟩
    · split
      · exact ⟨hg, hip⟩
      · rename_i h1 h2
        refine ⟨?_, fun j => ?_⟩
        · show s.global_running + 1 ≤ cfg.max_concurrent
          omega
        · show (if j = ip then s.running_jobs ip + 1 else s.running_jobs j) ≤
            cfg.max_per_ip
          by_cases hj : j = ip
          · rw [if_pos hj]
            omega
          · rw [if_neg hj]
            exact hip j
  | release ip =>
    show ConcInv cfg (release_concurrency_slot ip s)
    refine ⟨?_, fun j => ?_⟩
    · show s.global_running - 1 ≤ cfg.max_concurrent
      omega
    · show (if j = ip then s.running_jobs ip - 1 else s.running_jobs j) ≤
        cfg.max_per_ip
      by_cases hj : j = ip
      · rw [if_pos hj]
        have := hip ip
        omega
      · rw [if_neg hj]
        exact hip j

/-- Any call sequence preserves the counter bounds. -/
lemma concInv_run (cfg : ConcConfig) (evs : List ConcEvent) (s : ConcState)
    (h : ConcInv cfg s) : ConcInv cfg (runConcEvents cfg evs s) := by
  induction evs generalizing s with
  | nil => simpa [runConcEvents] using h
  | cons e rest ih =>
    simpa [runConcEvents] using ih (e.apply cfg s) (concInv_apply cfg e s h)

/-- C4: for every sequence of reserve/release calls from any mix of callers,
starting at process start, the global running counter stays within the
configured global maximum and every per-caller counter stays within the
per-caller maximum (both are `Nat`, hence never negative); a rejected
reserve returns the state unchanged; and a release decrements the global
counter and the caller's counter clamped at zero (`Nat` subtraction), leaving
every other caller's counter alone. -/
theorem concurrency_counters_bounded (cfg : ConcConfig) (evs : List ConcEvent)
    (ip : String) (s : ConcState) :
    ConcInv cfg (runConcEvents cfg evs ConcState.init) ∧
    ((check_concurrency cfg ip s).1 = false → (check_concurrency cfg ip s).2 = s) ∧
    (release_concurrency_slot ip s).global_running = s.global_running - 1 ∧
    (release_concurrency_slot ip s).running_jobs ip = s.running_jobs ip - 1 ∧
    (∀ j, j ≠ ip → (release_concurrency_slot ip s).running_jobs j = s.running_jobs j) := by
  refine ⟨concInv_run cfg evs ConcState.init ⟨Nat.zero_le _, fun _ => Nat.zero_le _⟩,
    ?_, rfl, by simp [release_concurrency_slot], fun j hj => by simp [release_concurrency_slot, hj]⟩
  unfold check_concurrency
  by_cases h1 : s.global_running ≥ cfg.max_concurrent
  · simp [h1]
  · by_cases h2 : s.running_jobs ip ≥ cfg.max_per_ip
    · simp [h1, h2]
    · simp [h1, h2]

/-- Witness for C4: a caller at the global cap is rejected with the state
unchanged, and a concrete call sequence lands within bounds. -/
theorem concurrency_counters_bounded_witness :
    (check_concurrency ⟨1, 1⟩ "a" ⟨1, fun _ => 0⟩).1 = false ∧
    (check_concurrency ⟨1, 1⟩ "a" ⟨1, fun _ => 0⟩).2 = ⟨1, fun _ => 0⟩ ∧
    ConcInv ⟨1, 1⟩ (runConcEvents ⟨1, 1⟩
      [ConcEvent.reserve "x", ConcEvent.reserve "y", ConcEvent.release "x"]
      ConcState.init) ∧
    ("b" ≠ "a") ∧
    (release_concurrency_slot "a" ⟨1, fun _ => 0⟩).running_jobs "b" = 0 := by
  refine ⟨rfl,
    (concurrency_counters_bounded ⟨1, 1⟩ [] "a" ⟨1, fun _ => 0⟩).2.1 rfl,
    (concurrency_counters_bounded ⟨1, 1⟩
      [ConcEvent.reserve "x", ConcEvent.reserve "y", ConcEvent.release "x"]
      "a" ⟨1, fun _ => 0⟩).1,
    by decide,
    (concurrency_counters_bounded ⟨1, 1⟩ [] "a" ⟨1, fun _ => 0⟩).2.2.2.2 "b" (by decide)⟩

/-- With a positive cap, `n` consecutive reserve attempts from process start
leave both budget counters at `min n cap`. -/
lemma budgetAfter_eq (c : Nat) (hc : 0 < c) (n : Nat) :
    budgetAfter c n = ⟨min n c, min n c⟩ := by
  have hne : c ≠ 0 := by omega
  induction n with
  | zero => simp [budgetAfter, BudgetState.init]
  | succ n ih =>
    rw [budgetAfter, ih]
    by_cases h : n < c
    · have h2 : min (n + 1) c = n + 1 := by omega
      have h3 : min n c = n := by omega
      simp [check_provision_budget, hne, h2, h3, show ¬ c ≤ n by omega]
    · have h2 : min (n + 1) c = c := by omega
      have h3 : min n c = c := by omega
      simp [check_provision_budget, hne, h2, h3]

/-- C5: with configured cap `c > 0` and no intervening release, the first
`c` reserves succeed, every later reserve is rejected leaving the counters
unchanged, and after one release exactly one further reserve succeeds (the
next one is rejected again). -/
theorem budget_cap_reserve_release (c : Nat) (hc : 0 < c) :
    (∀ n, n < c → (check_provision_budget c (budgetAfter c n)).1 = true) ∧
    (∀ n, c ≤ n → (check_provision_budget c (budgetAfter c n)).1 = false ∧
      (check_provision_budget c (budgetAfter c n)).2 = budgetAfter c n) ∧
    (check_provision_budget c (release_provision_slot (budgetAfter c c))).1 = true ∧
    (check_provision_budget c
      ((check_provision_budget c
        (release_provision_slot (budgetAfter c c))).2)).1 = false := by
  have hne : c ≠ 0 := by omega
  refine ⟨fun n hn => ?_, fun n hn => ?_, ?_, ?_⟩
  · rw [budgetAfter_eq c hc n]
    have h3 : min n c = n := by omega
    simp [check_provision_budget, hne, h3, show ¬ c ≤ n by omega]
  · rw [budgetAfter_eq c hc n]
    have h3 : min n c = c := by omega
    simp [check_provision_budget, hne, h3]
  · rw [budgetAfter_eq c hc c]
    simp [check_provision_budget, release_provision_slot, hne,
      show ¬ c ≤ c - 1 by omega]
  · rw [budgetAfter_eq c hc c]
    simp [check_provision_budget, release_provision_slot, hne,
      show ¬ c ≤ c - 1 by omega, show c - 1 + 1 = c by omega]

/-- Witness for C5 at the default cap `MAX_TOTAL_PROVISIONS = 3`: the 2nd
reserve succeeds, the 4th and 6th are rejected without mutation, and the
release/re-reserve cycle behaves as claimed. -/
theorem budget_cap_reserve_release_witness :
    (0 < 3) ∧
    (check_provision_budget 3 (budgetAfter 3 1)).1 = true ∧
    (check_provision_budget 3 (budgetAfter 3 3)).1 = false ∧
    (check_provision_budget 3 (budgetAfter 3 5)).2 = budgetAfter 3 5 ∧
    (check_provision_budget 3 (release_provision_slot (budgetAfter 3 3))).1 = true ∧
    (check_provision_budget 3
      ((check_provision_budget 3
        (release_provision_slot (budgetAfter 3 3))).2)).1 = false := by
  refine ⟨by decide,
    (budget_cap_reserve_release 3 (by decide)).1 1 (by decide),
    ((budget_cap_reserve_release 3 (by decide)).2.1 3 (by decide)).1,
    ((budget_cap_reserve_release 3 (by decide)).2.1 5 (by decide)).2,
    (budget_cap_reserve_release 3 (by decide)).2.2.1,
    (budget_cap_reserve_release 3 (by decide)).2.2.2⟩

/-- The replayed history contributes exactly its lines to the delivered
log sequence. -/
lemma logLines_map_log (l : List String) : logLines (l.map Frame.log) = l := by
  induction l with
  | nil => rfl
  | cons a rest ih => simp [logLines, List.filterMap_cons] at *; exact ih

/-- `logLines` distributes over frame concatenation. -/
lemma logLines_append (a b : List Frame) :
    logLines (a ++ b) = logLines a ++ logLines b := by
  simp [logLines, List.filterMap_append]

/-- Status, result, error, done and ping frames carry no log lines. -/
lemma logLines_resultFrames (r : Option ResVal) : logLines (resultFrames r) = [] := by
  cases r with
  | none => rfl
  | some v =>
    by_cases h : v.isEmpty <;> simp [resultFrames, h, logLines, List.filterMap_cons]

lemma logLines_errorFrames (e : Option String) : logLines (errorFrames e) = [] := by
  cases e with
  | none => rfl
  | some m =>
    by_cases h : m = "" <;> simp [errorFrames, h, logLines, List.filterMap_cons]

/-- The drain loop delivers precisely the relay lines it consumed before the
sentinel, minus the first `skipBudget` of them. -/
lemma logLines_drainFrames (k : Nat) (evs : List QEvent) :
    logLines (drainFrames k evs) = (linesBeforeEos evs).drop k := by
  induction evs generalizing k with
  | nil => simp [drainFrames, linesBeforeEos, logLines]
  | cons e rest ih =>
    cases e with
    | timeout =>
      simpa [drainFrames, linesBeforeEos, logLines, List.filterMap_cons] using ih k
    | eos => simp [drainFrames, linesBeforeEos, logLines]
    | line s =>
      cases k with
      | zero =>
        simpa [drainFrames, linesBeforeEos, logLines, List.filterMap_cons] using ih 0
      | succ k =>
        simpa [drainFrames, linesBeforeEos] using ih k

lemma logLines_statusF (st : JStatus) : logLines [Frame.statusF st] = [] := rfl

lemma logLines_done_frame : logLines [Frame.done] = [] := rfl

/-- Replaying a `k`-line snapshot and then dropping the snapshot's length
from the relay lines reassembles the full sequence. -/
lemma take_append_drop_length (l : List String) (k : Nat) :
    l.take k ++ l.drop (l.take k).length = l := by
  rw [List.length_take]
  rcases Nat.le_total k l.length with hk | hk
  · rw [Nat.min_eq_left hk]
    exact List.take_append_drop k l
  · rw [Nat.min_eq_right hk, List.drop_length, List.append_nil]
    exact List.take_of_length_le hk

/-- C2 (amended): a streaming session that is the sole consumer of its job's
relay queue — so the lines the queue hands it before the sentinel are exactly
the job's emitted sequence — delivers the full emitted log sequence exactly
once each, in emission order, with no duplicates and no gaps, provided the
job does not reach a terminal status between the session's history snapshot
(a `k`-line prefix of the emitted sequence) and its status check.  With two
simultaneous sessions sharing the single queue, or with a completion inside
that window, lines are lost (see the counterexample). -/
theorem sole_session_delivers_full_log (emitted : List String) (k : Nat)
    (stAtt : JStatus) (resAtt : Option ResVal) (errAtt : Option String)
    (events : List QEvent) (stEnd : JStatus) (resEnd : Option ResVal)
    (errEnd : Option String)
    (hsole : linesBeforeEos events = emitted)
    (hrace : stAtt.isTerminal = true → k = emitted.length) :
    logLines (ws_known_job (emitted.take k) stAtt resAtt errAtt events stEnd
      resEnd errEnd).1 = emitted := by
  unfold ws_known_job
  by_cases h : stAtt.isTerminal
  · rw [if_pos h]
    show logLines ((emitted.take k).map Frame.log ++ [Frame.statusF stAtt] ++
      resultFrames resAtt ++ errorFrames errAtt ++ [Frame.done]) = emitted
    rw [logLines_append, logLines_append, logLines_append, logLines_append,
      logLines_map_log, logLines_statusF, logLines_resultFrames,
      logLines_errorFrames, logLines_done_frame, List.append_nil,
      List.append_nil, List.append_nil, List.append_nil, hrace h,
      List.take_length]
  · rw [if_neg h]
    show logLines ((emitted.take k).map Frame.log ++ [Frame.statusF stAtt] ++
      drainFrames (emitted.take k).length events ++ [Frame.statusF stEnd] ++
      resultFrames resEnd ++ errorFrames errEnd ++ [Frame.done]) = emitted
    rw [logLines_append, logLines_append, logLines_append, logLines_append,
      logLines_append, logLines_append, logLines_map_log, logLines_statusF,
      logLines_drainFrames, logLines_statusF, logLines_resultFrames,
      logLines_errorFrames, logLines_done_frame, hsole, List.append_nil,
      List.append_nil, List.append_nil, List.append_nil, List.append_nil]
    exact take_append_drop_length emitted k

/-- Witness for C2's amended theorem: a sole observer attaches after one of
two lines, the relay hands it both lines (with one heartbeat timeout) and the
sentinel, and it delivers exactly `["A", "B"]`. -/
theorem sole_session_delivers_full_log_witness :
    linesBeforeEos [QEvent.line "A", QEvent.timeout, QEvent.line "B",
      QEvent.eos] = ["A", "B"] ∧
    logLines (ws_known_job (["A", "B"].take 1) JStatus.running none none
      [QEvent.line "A", QEvent.timeout, QEvent.line "B", QEvent.eos]
      JStatus.succeeded (some [("ip", "1.2.3.4")]) none).1 = ["A", "B"] :=
  ⟨by decide,
    sole_session_delivers_full_log ["A", "B"] 1 JStatus.running none none
      [QEvent.line "A", QEvent.timeout, QEvent.line "B", QEvent.eos]
      JStatus.succeeded (some [("ip", "1.2.3.4")]) none (by decide)
      (by decide)⟩

/-- C2 counterexample: the claim fails when two sessions observe the same
job.  The job emits "A" then "B" and succeeds, so the relay queue holds
`line A, line B, sentinel`.  Both sessions attach before any line was logged
(empty snapshot, status Running).  Because each `queue.get` removes an item,
the two sessions split the queue: the certified interleaving gives the first
session `line A` and the second `line B, sentinel`.  The second session then
delivers only `["B"]` — not the full emitted sequence `["A", "B"]`. -/
theorem two_sessions_lose_lines :
    isInterleave [QEvent.line "A"] [QEvent.line "B", QEvent.eos]
      [QEvent.line "A", QEvent.line "B", QEvent.eos] = true ∧
    logLines (ws_known_job [] JStatus.running none none
      [QEvent.line "B", QEvent.eos] JStatus.succeeded
      (some [("ip", "1.2.3.4")]) none).1 = ["B"] ∧
    (["B"] ≠ ["A", "B"]) := by
  refine ⟨by decide, by decide, by decide⟩

/-- C3 counterexample: a deploy/destroy-class job whose work returns `None`
(jobs.py line 139: "None for deploy/destroy") finishes with status Succeeded
while *neither* Result nor Error is set, refuting "exactly one of Result and
Error is set when the status is terminal" at this concrete input. -/
theorem succeeded_destroy_job_sets_neither :
    (runTrace ⟨["Destroying resources"], Outcome.ok none⟩).getLast? =
      some ⟨JStatus.succeeded, none, none⟩ ∧
    (JStatus.succeeded).isTerminal = true ∧
    (((⟨JStatus.succeeded, none, none⟩ : JobRec).result.isSome).xor
      ((⟨JStatus.succeeded, none, none⟩ : JobRec).error.isSome)) = false := by
  refine ⟨by decide, by decide, by decide⟩

/-- C3 (amended): over every state `_run_job` writes through a job record,
Result and Error are never both set; while Pending both are unset; when
Failed, Error is set and Result is unset; and when Succeeded, Error is unset
and Result holds exactly the value the work returned — which is a state dict
for provision work and `None` (absent) for deploy/destroy work.  (While
Running, the terminal value may already be stored in the one instant between
the runner storing it and the terminal status assignment.) -/
theorem job_record_result_error_discipline (w : Work) (r : JobRec)
    (h : r ∈ runTrace w) :
    (¬(r.result.isSome = true ∧ r.error.isSome = true)) ∧
    (r.status = JStatus.pending → r.result = none ∧ r.error = none) ∧
    (r.status = JStatus.succeeded → r.result = w.outcome.value ∧ r.error = none) ∧
    (r.status = JStatus.failed → r.result = none ∧ r.error.isSome = true) := by
  cases w with
  | mk lines outcome =>
    cases outcome with
    | ok v =>
      simp only [runTrace, run_job, List.mem_cons, List.not_mem_nil,
        or_false] at h
      rcases h with rfl | rfl | rfl | rfl <;>
        simp [JobRec.init, Outcome.value]
    | err m =>
      simp only [runTrace, run_job, List.mem_cons, List.not_mem_nil,
        or_false] at h
      rcases h with rfl | rfl | rfl | rfl <;>
        simp [JobRec.init, Outcome.value]

/-- Witness for C3's amended theorem: the terminal record of a failing job
has Error set and Result unset. -/
theorem job_record_result_error_discipline_witness :
    (⟨JStatus.failed, none, some "boom"⟩ : JobRec) ∈
      runTrace ⟨[], Outcome.err "boom"⟩ ∧
    ((⟨JStatus.failed, none, some "boom"⟩ : JobRec).result = none ∧
      (⟨JStatus.failed, none, some "boom"⟩ : JobRec).error.isSome = true) :=
  ⟨by decide,
    (job_record_result_error_discipline ⟨[], Outcome.err "boom"⟩
      ⟨JStatus.failed, none, some "boom"⟩ (by decide)).2.2.2 rfl⟩

lemma done_not_mem_map_log (l : List String) :
    Frame.done ∉ l.map Frame.log := by
  simp [List.mem_map]

lemma done_not_mem_drainFrames (k : Nat) (evs : List QEvent) :
    Frame.done ∉ drainFrames k evs := by
  induction evs generalizing k with
  | nil => simp [drainFrames]
  | cons e rest ih =>
    cases e with
    | timeout => simpa [drainFrames] using ih k
    | eos => simp [drainFrames]
    | line s =>
      by_cases hk : k > 0
      · simpa [drainFrames, hk] using ih (k - 1)
      · simpa [drainFrames, hk] using ih k

lemma done_not_mem_resultFrames (r : Option ResVal) :
    Frame.done ∉ resultFrames r := by
  cases r with
  | none => simp [resultFrames]
  | some v => by_cases h : v.isEmpty <;> simp [resultFrames, h]

lemma done_not_mem_errorFrames (e : Option String) :
    Frame.done ∉ errorFrames e := by
  cases e with
  | none => simp [errorFrames]
  | some m => by_cases h : m = "" <;> simp [errorFrames, h]

/-- C8: a session on a known job identity sends `done` exactly once and as
its final frame, closing with the normal code 1000, in both the
finished-at-attach and the live-streaming paths; a session on an unknown job
identity sends exactly one `error` frame, closes with the distinguishing
code 4004, and never sends `done`. -/
theorem session_done_frame_discipline (hist : List String) (stAtt : JStatus)
    (resAtt : Option ResVal) (errAtt : Option String) (events : List QEvent)
    (stEnd : JStatus) (resEnd : Option ResVal) (errEnd : Option String)
    (job_id : String) :
    (∃ pre, (ws_known_job hist stAtt resAtt errAtt events stEnd resEnd
        errEnd).1 = pre ++ [Frame.done] ∧ Frame.done ∉ pre) ∧
    (ws_known_job hist stAtt resAtt errAtt events stEnd resEnd errEnd).2 =
      1000 ∧
    (ws_unknown_job job_id).1 =
      [Frame.errorF ("Job " ++ job_id ++ " not found.")] ∧
    (ws_unknown_job job_id).2 = 4004 ∧
    Frame.done ∉ (ws_unknown_job job_id).1 := by
  refine ⟨?_, ?_, rfl, rfl, by simp [ws_unknown_job]⟩
  · unfold ws_known_job
    by_cases h : stAtt.isTerminal
    · rw [if_pos h]
      refine ⟨hist.map Frame.log ++ [Frame.statusF stAtt] ++
        resultFrames resAtt ++ errorFrames errAtt, rfl, ?_⟩
      simp only [List.mem_append, not_or]
      exact ⟨⟨⟨done_not_mem_map_log hist, by simp⟩,
        done_not_mem_resultFrames resAtt⟩, done_not_mem_errorFrames errAtt⟩
    · rw [if_neg h]
      refine ⟨hist.map Frame.log ++ [Frame.statusF stAtt] ++
        drainFrames hist.length events ++ [Frame.statusF stEnd] ++
        resultFrames resEnd ++ errorFrames errEnd, rfl, ?_⟩
      simp only [List.mem_append, not_or]
      exact ⟨⟨⟨⟨⟨done_not_mem_map_log hist, by simp⟩,
        done_not_mem_drainFrames hist.length events⟩, by simp⟩,
        done_not_mem_resultFrames resEnd⟩, done_not_mem_errorFrames errEnd⟩
  · unfold ws_known_job
    by_cases h : stAtt.isTerminal
    · rw [if_pos h]
    · rw [if_neg h]

end CloudLaunch
